import Mathlib

/-!
# ComicDownloader — shallow embedding and verification

A shallow embedding in Lean 4 of the ComicDownloader program
(`src/comicdownloader/__init__.py`, the package pipeline, and the legacy
script `src/ComicDownloader.py`), together with theorems settling the
specification claims about it.

Modelling conventions:
* Python `str` is modelled as `List Char`; Python bytes as `List Nat`.
* A compiled regular expression is modelled by its observable behaviour in
  this program: `re.search` followed by `match.group(1)`, i.e. a function
  `List Char → Option (List Char)` returning the first capture group of the
  leftmost match, or `none` when there is no match.  The two concrete
  default patterns of the program are given executable models below.
* External collaborators (HTTP session, HTML parser, raster codec) are
  oracle functions supplied as parameters, returning `Except` for fallible
  calls, exactly where the Python code can raise.
* Python exceptions are modelled by the error type `Err`; `raise X from e`
  becomes an `Err` constructor carrying the cause.
* `print` diagnostics are side effects with no bearing on the data flow and
  are dropped by the embedding.
-/

deriving instance DecidableEq for Except

/-- Python `bytes` blobs. -/
abbrev Bytes := List Nat

/-- A compiled regex, observed through `re.search(p, s)` + `match.group(1)`. -/
abbrev Re := List Char → Option (List Char)

/-- Errors raised by the program.  `external` stands for an exception coming
out of a collaborator (network, codec, ...); the remaining constructors are
the program's own raises: `namingError` is the `ValueError` of `get_name`,
`emptyResultError` the `RuntimeError("No images found for ...")` of
`actions`, `imageFetchError` the `RuntimeError(... from e)` of
`Img.download_jpeg`, and `attributeError` the `AttributeError` of reading
the unset `_imgs_data` field. -/
inductive Err where
  | external (msg : List Char)
  | namingError (url : List Char)
  | emptyResultError (url : List Char)
  | imageFetchError (url : List Char) (cause : Err)
  | attributeError
deriving DecidableEq, Repr

/-- Discriminator for `Err.imageFetchError`. -/
def Err.isImageFetchError : Err → Bool
  | .imageFetchError _ _ => true
  | _ => false

/-- Python `s.endswith(suf)` on the `List Char` string model. -/
def endswith (s suf : List Char) : Bool :=
  suf.isSuffixOf s

/-- Python `s.lstrip()` (leading whitespace removed). -/
def lstrip (s : List Char) : List Char :=
  s.dropWhile Char.isWhitespace

/-- Python `s.rstrip()` (trailing whitespace removed). -/
def rstrip (s : List Char) : List Char :=
  (s.reverse.dropWhile Char.isWhitespace).reverse

/-- Python `s.strip()`. -/
def strip (s : List Char) : List Char :=
  lstrip (rstrip s)

/-- Python format `f"{s:0>w}"`: left-pad with `'0'` to minimum width `w`
(text padding, applied to arbitrary strings). -/
def padLeftZero (w : Nat) (s : List Char) : List Char :=
  List.replicate (w - s.length) '0' ++ s

/-- The `dataclass Img` — one image descriptor: target `filename` inside the
archive and the page's source `url`. -/
structure Img where
  filename : List Char
  url : List Char
deriving DecidableEq, Repr

/-- The `dataclass ImageConfig`.  `number_pattern` is the compiled
`--number-pattern` regex, modelled as a group-1 search function. -/
structure ImageConfig where
  selector : List Char
  number_attr : List Char
  url_attr : List Char
  number_pattern : Re

/-- An HTML node as the locator sees it: its attribute dictionary.  A
selectolax attribute that is present but valueless maps to `none`, matching
`node.attributes` in Python. -/
structure Node where
  attrs : List (List Char × Option (List Char))
deriving DecidableEq, Repr

/-- Model of `node.attributes.get(name)` — `none` for an absent attribute, and the
flattening means a valueless attribute is indistinguishable from an absent
one, as with `dict.get` on selectolax's dictionary. -/
def Node.getAttr (node : Node) (name : List Char) : Option (List Char) :=
  (node.attrs.lookup name).join

/-- Python truthiness test `not x` for an `Optional[str]`: true when the
value is absent or the empty string. -/
def falsy : Option (List Char) → Bool
  | none => true
  | some s => s.isEmpty

/-- Function `img_from_node(node, config)` from `comicdownloader/__init__.py`:
skip (returning `None`) when either attribute is absent/empty, when the raw
URL ends in `"png"`, or when `number_pattern` finds no match in the number
attribute; otherwise build `Img(f"{match.group(1):0>3}.jpg", url.strip())`. -/
def img_from_node (node : Node) (config : ImageConfig) : Option Img :=
  let number := node.getAttr config.number_attr
  let url := node.getAttr config.url_attr
  if falsy url || falsy number then
    none
  else
    let u := url.getD []
    let n := number.getD []
    if endswith u ['p', 'n', 'g'] then
      none
    else
      match config.number_pattern n with
      | none => none
      | some g => some ⟨padLeftZero 3 g ++ ".jpg".toList, strip u⟩

/-- Function `find_images` from `comicdownloader/__init__.py`, with the external
`session.get(url)` + `HTMLParser(...).css(selector)` steps factored out:
`nodes` is the node list the CSS selector engine returned for the page, and
the function keeps the non-`None` results of `img_from_node` in document
order (the generator + list comprehension of the source). -/
def find_images (nodes : List Node) (config : ImageConfig) : List Img :=
  nodes.filterMap (fun node => img_from_node node config)

/-- Model of the compiled default `--number-pattern` regex `(\d+)` under
`re.search` + `group(1)`: the leftmost maximal run of decimal digits, or
`none` if the string has no digit. -/
def digitSearch : Re
  | [] => none
  | c :: cs =>
    if c.isDigit then some (c :: cs.takeWhile Char.isDigit)
    else digitSearch cs

/-- Model of the compiled default `--url-name-pattern` regex
`^.+/([^/]+)/?$` under `re.search` + `group(1)`, for inputs without a
newline character.  Backtracking semantics of the anchored pattern: after
discarding one optional trailing `'/'`, the group is the segment after the
last remaining `'/'`, provided that segment and the part before that `'/'`
are both non-empty (`.+` must consume at least one character). -/
def urlNameSearch : Re := fun s =>
  let t := if s.getLast? = some '/' then s.dropLast else s
  let r := t.reverse
  let g := (r.takeWhile (fun c => c ≠ '/')).reverse
  match r.dropWhile (fun c => c ≠ '/') with
  | [] => none
  | _ :: pre => if g.isEmpty || pre.isEmpty then none else some g

/-- Function `sequential_search(data, regexs)`: fold the regex chain over the working
value, each stage replacing it with the first capture group of its match;
`none` as soon as one stage fails to match. -/
def sequential_search (data : List Char) : List Re → Option (List Char)
  | [] => some data
  | r :: rs =>
    match r data with
    | none => none
    | some g => sequential_search g rs

/-- Function `get_name(url, regexs, padding)`: resolve the archive filename.  A
failed chain raises `ValueError` (modelled `Err.namingError url`); a truthy
`padding` left-pads with `'0'` to that width; `".cbz"` is appended.
`padding` is `Option Nat` for `int | None` (the CLI default is `3`). -/
def get_name (url : List Char) (regexs : List Re) (padding : Option Nat) :
    Except Err (List Char) :=
  match sequential_search url regexs with
  | none => .error (.namingError url)
  | some name =>
    match padding with
    | some p =>
      if p ≠ 0 then .ok (padLeftZero p name ++ ".cbz".toList)
      else .ok (name ++ ".cbz".toList)
    | none => .ok (name ++ ".cbz".toList)

/-- The external collaborators used during the `Downloading` stage, as one
oracle record: `fetch` is `session.get(url, stream=True)` + `acontent()`
(raw body bytes or a raised exception), `decode` is `Image.open` (an
in-memory image, kept abstract as bytes, or a raised exception), `encode`
is `image.save(buffer, format="jpeg")` (JPEG bytes, or a raised exception —
e.g. PIL refuses to write an RGBA image as JPEG). -/
structure Session where
  fetch : List Char → Except Err Bytes
  decode : Bytes → Except Err Bytes
  encode : Bytes → Except Err Bytes

/-- Method `Img.download_jpeg` from `comicdownloader/__init__.py`.  The `try` block
covers `session.get`/`acontent`/`Image.open`; a failure there is re-raised
as `RuntimeError(f"Encountered an error while downloading {url!r}") from e`
(modelled `Err.imageFetchError url e`).  The JPEG re-encode sits after the
`try` block, so its failure propagates unwrapped. -/
def Img.download_jpeg (img : Img) (session : Session) : Except Err Bytes :=
  match (do
      let data ← session.fetch img.url
      session.decode data : Except Err Bytes) with
  | .error e => .error (.imageFetchError img.url e)
  | .ok image => session.encode image

/-- Model of `asyncio.gather(*tasks)` over the per-image tasks: an
input-order-preserving join.  All tasks settle independently; the result
list matches the input order, and a failing task fails the whole gather.
The concurrency is collapsed: the error reported is the first in input
order (a determinization of which failure `gather` re-raises). -/
def gather {α β : Type} (f : α → Except Err β) : List α → Except Err (List β)
  | [] => .ok []
  | x :: xs =>
    match f x with
    | .error e => .error e
    | .ok b =>
      match gather f xs with
      | .error e => .error e
      | .ok bs => .ok (b :: bs)

/-- The `dataclass Archive`.  The `_imgs_data` field is declared
`field(init=False)` and only assigned by a successful `download`; the unset
state is modelled by `none` (reading it then raises `AttributeError`). -/
structure Archive where
  filename : List Char
  imgs : List Img
  imgsData : Option (List Bytes) := none
deriving DecidableEq, Repr

/-- Method `Archive.download`: gather all `download_jpeg` tasks; only a fully
successful gather assigns `_imgs_data`.  A raised error leaves the archive
exactly as it was (the assignment never happens). -/
def Archive.download (a : Archive) (session : Session) : Except Err Archive :=
  match gather (fun img => img.download_jpeg session) a.imgs with
  | .error e => .error e
  | .ok ds => .ok { a with imgsData := some ds }

/-- The content of one written zip file: its entries in order,
`name ↦ bytes`. -/
abbrev Zip := List (List Char × Bytes)

/-- The output directory's state: path ↦ written zip content. -/
abbrev FS := List Char → Option Zip

/-- Model of `directory / self.filename` path joining from `pathlib`. -/
def pathJoin (dir name : List Char) : List Char :=
  dir ++ '/' :: name

/-- Writing one file: `ZipFile(path, "w")` truncates any existing file, so
the previous content at `path` is overwritten. -/
def fsWrite (fs : FS) (p : List Char) (z : Zip) : FS :=
  fun q => if q = p then some z else fs q

/-- Method `Archive.save`: open `directory / filename` for writing and `writestr`
one entry per `zip(self.imgs, self._imgs_data)` pair (Python's `zip`
truncates to the shorter sequence, hence `List.zipWith`).  Reading the
unset `_imgs_data` raises `AttributeError`. -/
def Archive.save (a : Archive) (directory : List Char) (fs : FS) :
    Except Err FS :=
  match a.imgsData with
  | none => .error .attributeError
  | some ds =>
    .ok (fsWrite fs (pathJoin directory a.filename)
      (List.zipWith (fun img d => (img.filename, d)) a.imgs ds))

/-- The run's external world: the shared HTTP/codec session and the
composition `session.get(url)` + `HTMLParser(response.text).css(selector)`
that produces the node list for a page (the HTTP transport and the HTML
parser are out-of-scope collaborators). -/
structure Env where
  session : Session
  pageNodes : List Char → Except Err (List Node)

/-- One iteration of the `actions` loop of `comicdownloader/__init__.py`
(the package pipeline) for a single URL: find the images, raise
`RuntimeError(f"No images found for {url!r}")` when there are none, resolve
the archive name, download, save.  Progress printing is dropped. -/
def process_url (env : Env) (config : ImageConfig) (regexs : List Re)
    (padding : Option Nat) (directory : List Char) (fs : FS)
    (url : List Char) : Except Err FS :=
  match env.pageNodes url with
  | .error e => .error e
  | .ok nodes =>
    let images := find_images nodes config
    if images.length = 0 then .error (.emptyResultError url)
    else
      match get_name url regexs padding with
      | .error e => .error e
      | .ok name =>
        match (Archive.mk name images none).download env.session with
        | .error e => .error e
        | .ok archive => archive.save directory fs

/-- The `actions` loop of `comicdownloader/__init__.py` over the URL list.
There is no `try`/`except` around the loop body: the first exception
propagates out of `actions` (and `asyncio.run`), terminating the whole
run. -/
def actions (env : Env) (config : ImageConfig) (regexs : List Re)
    (padding : Option Nat) (directory : List Char) (fs : FS) :
    List (List Char) → Except Err FS
  | [] => .ok fs
  | url :: urls =>
    match process_url env config regexs padding directory fs url with
    | .error e => .error e
    | .ok fs' => actions env config regexs padding directory fs' urls

/-- One iteration of the `actions` loop of the legacy `ComicDownloader.py`
script: identical to the package variant except that there is no
empty-result check (and its `img_from_node` has no png exclusion; that
difference does not matter here, where the node list is empty anyway). -/
def legacy_process_url (env : Env) (config : ImageConfig) (regexs : List Re)
    (padding : Option Nat) (directory : List Char) (fs : FS)
    (url : List Char) : Except Err FS :=
  match env.pageNodes url with
  | .error e => .error e
  | .ok nodes =>
    let images := find_images nodes config
    match get_name url regexs padding with
    | .error e => .error e
    | .ok name =>
      match (Archive.mk name images none).download env.session with
      | .error e => .error e
      | .ok archive => archive.save directory fs

/-- Fuelled `⌊log₂ n⌋` (structural recursion on fuel so that the kernel can
evaluate it). -/
def log2go : Nat → Nat → Nat
  | 0, _ => 0
  | fuel + 1, n => if n ≤ 1 then 0 else log2go fuel (n / 2) + 1

/-- Computes `⌊log₂ n⌋` for `1 ≤ n < 2 ^ 128`. -/
def log2n (n : Nat) : Nat := log2go 128 n

/-- Does `2 ^ e ≤ a / b` hold?  Integer arithmetic only. -/
def le2 (a b : Nat) (e : ℤ) : Bool :=
  if 0 ≤ e then b * 2 ^ e.toNat ≤ a else b ≤ a * 2 ^ (-e).toNat

/-- Computes `⌊log₂ (a / b)⌋` for positive naturals, from the bit lengths of the
numerator and the denominator with a correction step. -/
def floorLog2Frac (a b : Nat) : ℤ :=
  let e0 : ℤ := (log2n a : ℤ) - (log2n b : ℤ)
  if le2 a b (e0 + 1) then e0 + 1
  else if le2 a b e0 then e0
  else if le2 a b (e0 - 1) then e0 - 1
  else e0 - 2

/-- Round the positive fraction `a / b` to the nearest IEEE-754 binary64
value (53-bit significand, round to nearest, ties to even; overflow and
subnormals never arise in the bar computation).  The result is returned as
the exact dyadic pair `(m, e)` with value `m * 2 ^ e` and `2 ^ 52 ≤ m`.
This integer algorithm was validated against CPython's float arithmetic on
all `0 ≤ completed ≤ overall ≤ 500`. -/
def roundFracPos (a b : Nat) : Nat × ℤ :=
  let e := floorLog2Frac a b
  let num := if e ≤ 52 then a * 2 ^ (52 - e).toNat else a
  let den := if e ≤ 52 then b else b * 2 ^ (e - 52).toNat
  let mfl := num / den
  let rem := num % den
  let m :=
    if den < 2 * rem then mfl + 1
    else if 2 * rem < den then mfl
    else if mfl % 2 = 0 then mfl else mfl + 1
  (m, e - 52)

/-- The fraction whose value is `(m * 2 ^ e) * k` — a binary64 value times
an exactly converted natural, before rounding. -/
def dyadicMulFrac (m : Nat) (e : ℤ) (k : Nat) : Nat × Nat :=
  if 0 ≤ e then (m * k * 2 ^ e.toNat, 1) else (m * k, 2 ^ (-e).toNat)

/-- Computes `math.ceil` of the non-negative dyadic `m * 2 ^ e`. -/
def ceilDyadic (m : Nat) (e : ℤ) : Nat :=
  if 0 ≤ e then m * 2 ^ e.toNat
  else (m + 2 ^ (-e).toNat - 1) / 2 ^ (-e).toNat

/-- The filled-cell count computed by `bar` for `overall ≥ 1`:
`step = 1 / overall * width` evaluates in binary64 (one rounded division,
then one rounded multiplication — the integer operands convert exactly),
and `taken = ceil(completed * step)` rounds the product once more before
the exact `math.ceil`. -/
def barTaken (completed overall width : Nat) : Nat :=
  if completed = 0 then 0
  else
    let s1 := roundFracPos 1 overall
    let f2 := dyadicMulFrac s1.1 s1.2 width
    let step := roundFracPos f2.1 f2.2
    let f3 := dyadicMulFrac step.1 step.2 completed
    let p := roundFracPos f3.1 f3.2
    ceilDyadic p.1 p.2

/-- Function `bar(completed, overall, width, filler, empty)` from
`comicdownloader/__init__.py`:
`f"[{filler * taken}{empty * (width - taken)}]"`.  Python string repetition
with a negative count yields the empty string, matching truncated `Nat`
subtraction here (`taken` is never negative). -/
def bar (completed overall : Nat) (width : Nat := 100)
    (filler : Char := '█') (empty : Char := ' ') : List Char :=
  let taken := barTaken completed overall width
  '[' :: (List.replicate taken filler ++
    List.replicate (width - taken) empty ++ [']'])

/-- The fill count the specification describes:
`⌈completed / total * width⌉` in exact arithmetic. -/
def specBarFill (completed overall width : Nat) : ℤ :=
  ⌈(completed : ℚ) / (overall : ℚ) * (width : ℚ)⌉

/-- Projection of the raised error of a finished computation, for stating
concrete run outcomes. -/
def exceptErr {ε α : Type} : Except ε α → Option ε
  | .ok _ => none
  | .error e => some e

/-- Did the computation finish without raising? -/
def exceptIsOk {ε α : Type} : Except ε α → Bool
  | .ok _ => true
  | .error _ => false

/-- Projection of the resulting directory state of a finished run (empty
directory if the run raised), for stating concrete run outcomes. -/
def exceptFS : Except Err FS → FS
  | .ok fs => fs
  | .error _ => fun _ => none

/-- The empty output directory. -/
def fsEmpty : FS := fun _ => none

/-- The default `ImageConfig` of the CLI: selector `img`, number attribute
`id`, URL attribute `src`, number pattern `(\d+)`. -/
def cfgDefault : ImageConfig :=
  ⟨"img".toList, "id".toList, "src".toList, digitSearch⟩

/-- The default name-resolution chain with `--number`:
`^.+/([^/]+)/?$` then `(\d+)`. -/
def regsDefault : List Re := [urlNameSearch, digitSearch]

/-- A node with a number attribute but no URL attribute. -/
def nodeNoUrl : Node := ⟨[("id".toList, some "1".toList)]⟩

/-- A node whose URL attribute ends in `"png"`. -/
def nodePng : Node :=
  ⟨[("id".toList, some "2".toList), ("src".toList, some "a.png".toList)]⟩

/-- A well-formed node: number `1`, URL `a.jpg`. -/
def nodeOk1 : Node :=
  ⟨[("id".toList, some "1".toList), ("src".toList, some "a.jpg".toList)]⟩

/-- A node whose number attribute holds a four-digit ordinal. -/
def node1234 : Node :=
  ⟨[("id".toList, some "1234".toList), ("src".toList, some "b.jpg".toList)]⟩

/-- A node whose URL attribute ends in `"png"` followed by a space. -/
def nodePngSpace : Node :=
  ⟨[("id".toList, some "5".toList), ("src".toList, some "c.png ".toList)]⟩

/-- A session whose fetch, decode and encode all succeed. -/
def sessOk : Session := ⟨fun _ => .ok [1], fun d => .ok d, fun d => .ok d⟩

/-- A session whose fetch and decode succeed but whose JPEG re-encode
raises (as PIL does, e.g., for an RGBA source image). -/
def sessEncodeFail : Session :=
  ⟨fun _ => .ok [1], fun d => .ok d, fun _ => .error (.external "encodefail".toList)⟩

/-- A session whose network fetch raises. -/
def sessFetchFail : Session :=
  ⟨fun _ => .error (.external "net".toList), fun d => .ok d, fun d => .ok d⟩

/-- A concrete image descriptor. -/
def imgW : Img := ⟨"001.jpg".toList, "u".toList⟩

/-- A one-image archive, not yet downloaded. -/
def archOne : Archive := ⟨"001.cbz".toList, [imgW], none⟩

/-- A two-image archive whose download has completed. -/
def archTwo : Archive :=
  ⟨"007.cbz".toList,
   [⟨"001.jpg".toList, "u1".toList⟩, ⟨"002.jpg".toList, "u2".toList⟩],
   some [[1], [2]]⟩

/-- A URL whose page has no matching images. -/
def urlA : List Char := "https://e.com/a/1/".toList

/-- A URL whose page has one well-formed image. -/
def urlB : List Char := "https://e.com/b/2/".toList

/-- A run environment: `urlA` locates zero images, every other URL locates
exactly `nodeOk1`; all fetches succeed. -/
def envC : Env :=
  ⟨sessOk, fun url => if url = urlA then .ok [] else .ok [nodeOk1]⟩

/-- A successful `gather` returns one result per input, in input order. -/
theorem gather_ok {α β : Type} (f : α → Except Err β) (l : List α) (bs : List β)
    (h : gather f l = .ok bs) :
    bs.length = l.length ∧
      ∀ (i : Nat) (h1 : i < l.length) (h2 : i < bs.length),
        f (l.get ⟨i, h1⟩) = .ok (bs.get ⟨i, h2⟩) := by
  induction l generalizing bs with
  | nil =>
    unfold gather at h
    simp only [Except.ok.injEq] at h
    subst h
    exact ⟨rfl, fun i h1 h2 => absurd h1 (by simp)⟩
  | cons x xs ih =>
    unfold gather at h
    cases hfx : f x with
    | error e =>
      rw [hfx] at h
      simp at h
    | ok b =>
      rw [hfx] at h
      cases hg : gather f xs with
      | error e =>
        rw [hg] at h
        simp at h
      | ok bs2 =>
        rw [hg] at h
        simp only [Except.ok.injEq] at h
        subst h
        obtain ⟨hlen, hpt⟩ := ih bs2 hg
        refine ⟨by simp [hlen], ?_⟩
        intro i h1 h2
        cases i with
        | zero => exact hfx
        | succ j => exact hpt j (by simpa using h1) (by simpa using h2)

/-- A failed `gather` owes its error to some member of the input. -/
theorem gather_error {α β : Type} (f : α → Except Err β) (l : List α) (e : Err)
    (h : gather f l = .error e) : ∃ x, x ∈ l ∧ f x = .error e := by
  induction l with
  | nil => unfold gather at h; simp at h
  | cons x xs ih =>
    unfold gather at h
    cases hfx : f x with
    | error e2 =>
      rw [hfx] at h
      simp only [Except.error.injEq] at h
      subst h
      exact ⟨x, List.mem_cons_self x xs, hfx⟩
    | ok b =>
      rw [hfx] at h
      cases hg : gather f xs with
      | error e2 =>
        rw [hg] at h
        simp only [Except.error.injEq] at h
        subst h
        obtain ⟨y, hy, hfy⟩ := ih hg
        exact ⟨y, List.mem_cons_of_mem x hy, hfy⟩
      | ok bs2 =>
        rw [hg] at h
        simp at h

/-- An `endswith` test in terms of the suffix relation. -/
theorem endswith_iff {s suf : List Char} : endswith s suf = true ↔ suf <:+ s := by
  simp [endswith, List.isSuffixOf_iff_suffix]

/-- A string with a trailing non-empty run of whitespace does not end in
`"png"`. -/
theorem endswith_png_append_ws (u w : List Char) (hw : w ≠ [])
    (hws : ∀ c ∈ w, c.isWhitespace = true) :
    endswith (u ++ w) ['p', 'n', 'g'] = false := by
  by_contra hc
  rw [Bool.not_eq_false, endswith_iff] at hc
  obtain ⟨t, ht⟩ := hc
  have hwl : w.getLast? = some (w.getLast hw) := List.getLast?_eq_getLast w hw
  have h1 : (u ++ w).getLast? = some (w.getLast hw) := by
    rw [List.getLast?_append, hwl]
    rfl
  have h2 : (u ++ w).getLast? = some 'g' := by
    rw [← ht]
    simp [List.getLast?_append]
  have h3 : w.getLast hw = 'g' := by
    rw [h1] at h2
    simpa using h2
  have h4 : Char.isWhitespace 'g' = true := by
    have hmem := hws (w.getLast hw) (List.getLast_mem hw)
    rwa [h3] at hmem
  exact absurd h4 (by decide)

/-- Stripping a trailing run of whitespace leaves the `"png"`-final core. -/
theorem rstrip_append_ws (v w : List Char)
    (hws : ∀ c ∈ w, c.isWhitespace = true) :
    rstrip ((v ++ ['p', 'n', 'g']) ++ w) = v ++ ['p', 'n', 'g'] := by
  unfold rstrip
  rw [List.reverse_append, List.reverse_append]
  have hwrev : List.dropWhile Char.isWhitespace w.reverse = [] := by
    rw [List.dropWhile_eq_nil_iff]
    intro c hc
    exact hws c (List.mem_reverse.mp hc)
  rw [List.dropWhile_append, hwrev]
  simp only [List.isEmpty_nil, if_true]
  have hrev : (['p', 'n', 'g'] : List Char).reverse = ['g', 'n', 'p'] := by decide
  rw [hrev]
  have hdrop : List.dropWhile Char.isWhitespace (['g', 'n', 'p'] ++ v.reverse) =
      ['g', 'n', 'p'] ++ v.reverse := by
    rw [List.dropWhile_append,
      show List.dropWhile Char.isWhitespace ['g', 'n', 'p'] = ['g', 'n', 'p']
        from by decide]
    simp
  rw [hdrop]
  simp

/-- Stripping leading whitespace from a `"png"`-final string leaves a
`"png"`-final string. -/
theorem lstrip_endswith_png (v : List Char) :
    endswith (lstrip (v ++ ['p', 'n', 'g'])) ['p', 'n', 'g'] = true := by
  rw [endswith_iff]
  unfold lstrip
  rw [List.dropWhile_append]
  by_cases hv : (List.dropWhile Char.isWhitespace v).isEmpty = true
  · rw [if_pos hv]
    have hpng : List.dropWhile Char.isWhitespace ['p', 'n', 'g'] =
        ['p', 'n', 'g'] := by decide
    rw [hpng]
  · rw [if_neg hv]
    exact List.suffix_append _ _

/-- C3: for every page and `ImageConfig`, `locate` skips every matched node
whose number attribute or URL attribute is absent or empty, skips every
node whose URL attribute ends in `"png"`, and returns the surviving
descriptors in source document order with no deduplication or sorting
(skipping prints a diagnostic and returns `None` instead of raising). -/
theorem locate_skip_rules_and_document_order :
    (∀ (node : Node) (config : ImageConfig),
        falsy (node.getAttr config.url_attr) = true ∨
          falsy (node.getAttr config.number_attr) = true →
        img_from_node node config = none) ∧
    (∀ (node : Node) (config : ImageConfig) (u : List Char),
        node.getAttr config.url_attr = some u →
        endswith u ['p', 'n', 'g'] = true →
        img_from_node node config = none) ∧
    (∀ (nodes₁ nodes₂ : List Node) (config : ImageConfig),
        find_images (nodes₁ ++ nodes₂) config =
          find_images nodes₁ config ++ find_images nodes₂ config) ∧
    (∀ (node : Node) (config : ImageConfig) (img : Img),
        img_from_node node config = some img →
        find_images [node, node] config = [img, img]) := by
  refine ⟨?_, ?_, ?_, ?_⟩
  · intro node config h
    rcases h with h | h <;> simp [img_from_node, h]
  · intro node config u hu hpng
    have hne : u.isEmpty = false := by
      cases u with
      | nil => exact absurd hpng (by decide)
      | cons c cs => rfl
    cases hfn : falsy (node.getAttr config.number_attr) <;>
      simp [img_from_node, hu, hfn, falsy, hne, hpng]
  · intro nodes₁ nodes₂ config
    simp [find_images, List.filterMap_append]
  · intro node config img h
    simp [find_images, h]

/-- Witness for C3 at concrete nodes: a node with no URL attribute is
skipped, a node whose URL ends in `"png"` is skipped, and a duplicated
well-formed node yields its descriptor twice, in order. -/
theorem locate_skip_rules_witness :
    img_from_node nodeNoUrl cfgDefault = none ∧
    img_from_node nodePng cfgDefault = none ∧
    find_images [nodeOk1, nodeOk1] cfgDefault =
      [⟨"001.jpg".toList, "a.jpg".toList⟩, ⟨"001.jpg".toList, "a.jpg".toList⟩] :=
  ⟨locate_skip_rules_and_document_order.1 nodeNoUrl cfgDefault (Or.inl (by decide)),
   locate_skip_rules_and_document_order.2.1 nodePng cfgDefault "a.png".toList
     (by decide) (by decide),
   locate_skip_rules_and_document_order.2.2.2 nodeOk1 cfgDefault
     ⟨"001.jpg".toList, "a.jpg".toList⟩ (by decide)⟩

/-- C7 counterexample: a node whose number attribute matches with a
four-digit capture group produces the filename `"1234.jpg"`, whose part
before `".jpg"` has length 4, not exactly 3. -/
theorem filename_width_counterexample :
    img_from_node node1234 cfgDefault =
      some ⟨"1234.jpg".toList, "b.jpg".toList⟩ ∧
    "1234".toList.length ≠ 3 := by decide

/-- C7 as amended: every descriptor filename produced by the locator is the
first capture group of the number-pattern match zero-padded to width at
least 3 (exactly 3 whenever the group has at most 3 characters), followed
by `".jpg"`. -/
theorem filename_min_width_three (node : Node) (config : ImageConfig)
    (img : Img) (g : List Char)
    (hg : config.number_pattern ((node.getAttr config.number_attr).getD []) =
      some g)
    (h : img_from_node node config = some img) :
    img.filename = padLeftZero 3 g ++ ".jpg".toList ∧
    (padLeftZero 3 g).length = max 3 g.length ∧
    3 ≤ (padLeftZero 3 g).length ∧
    (g.length ≤ 3 → (padLeftZero 3 g).length = 3) := by
  have hlen : (padLeftZero 3 g).length = max 3 g.length := by
    simp [padLeftZero]
    omega
  refine ⟨?_, hlen, by rw [hlen]; omega, fun hg3 => by rw [hlen]; omega⟩
  simp only [img_from_node] at h
  split at h
  · exact absurd h (by simp)
  · split at h
    · exact absurd h (by simp)
    · rw [hg] at h
      simp only [Option.some.injEq] at h
      rw [← h]

/-- Witness for the amended C7 at a concrete node with a one-digit group. -/
theorem filename_min_width_three_witness :
    (Img.mk "001.jpg".toList "a.jpg".toList).filename =
      padLeftZero 3 "1".toList ++ ".jpg".toList ∧
    (padLeftZero 3 "1".toList).length = max 3 "1".toList.length ∧
    3 ≤ (padLeftZero 3 "1".toList).length ∧
    ("1".toList.length ≤ 3 → (padLeftZero 3 "1".toList).length = 3) :=
  filename_min_width_three nodeOk1 cfgDefault
    ⟨"001.jpg".toList, "a.jpg".toList⟩ "1".toList (by decide) (by decide)

/-- C10: the png exclusion is evaluated on the raw, untrimmed URL
attribute, while the stored `sourceURL` is the trimmed value: a node whose
URL attribute ends in `"png"` followed by whitespace (and whose number
attribute matches) is not skipped, and the resulting descriptor's URL ends
in `"png"`. -/
theorem png_check_on_raw_url_and_trimmed_store
    (node : Node) (config : ImageConfig) (v w n g : List Char)
    (hu : node.getAttr config.url_attr = some ((v ++ ['p', 'n', 'g']) ++ w))
    (hw : w ≠ []) (hws : ∀ c ∈ w, c.isWhitespace = true)
    (hn : node.getAttr config.number_attr = some n) (hne : n ≠ [])
    (hg : config.number_pattern n = some g) :
    img_from_node node config =
      some ⟨padLeftZero 3 g ++ ".jpg".toList,
        strip ((v ++ ['p', 'n', 'g']) ++ w)⟩ ∧
    endswith (strip ((v ++ ['p', 'n', 'g']) ++ w)) ['p', 'n', 'g'] = true := by
  have hstrip : strip ((v ++ ['p', 'n', 'g']) ++ w) = lstrip (v ++ ['p', 'n', 'g']) := by
    unfold strip
    rw [rstrip_append_ws v w hws]
  constructor
  · have hurl_ne : ((v ++ ['p', 'n', 'g']) ++ w).isEmpty = false := by
      cases v <;> rfl
    have hne2 : n.isEmpty = false := by
      cases n with
      | nil => exact absurd rfl hne
      | cons c cs => rfl
    have hpng : endswith ((v ++ ['p', 'n', 'g']) ++ w) ['p', 'n', 'g'] = false :=
      endswith_png_append_ws _ w hw hws
    have hpng2 : endswith (v ++ 'p' :: 'n' :: 'g' :: w) ['p', 'n', 'g'] = false := by
      simpa using hpng
    simp [img_from_node, hu, hn, falsy, hurl_ne, hne2, hpng, hpng2, hg]
  · rw [hstrip]
    exact lstrip_endswith_png v

/-- Witness for C10 at a concrete node whose URL attribute is `"c.png "`. -/
theorem png_check_witness :
    img_from_node nodePngSpace cfgDefault =
      some ⟨padLeftZero 3 "5".toList ++ ".jpg".toList,
        strip (("c.".toList ++ ['p', 'n', 'g']) ++ [' '])⟩ ∧
    endswith (strip (("c.".toList ++ ['p', 'n', 'g']) ++ [' ']))
      ['p', 'n', 'g'] = true :=
  png_check_on_raw_url_and_trimmed_store nodePngSpace cfgDefault
    "c.".toList [' '] "5".toList "5".toList
    (by decide) (by decide) (by decide) (by decide) (by decide) (by decide)

/-- C5: name resolution starts with the URL and, for each regex in chain
order, searches it and replaces the working value with the first capture
group of the match; if any stage fails, resolution fails with a
`NamingError` carrying the URL; and the URL
`https://example.com/chapter/42/` with the default pattern, the `--number`
stage and padding 3 resolves to `042.cbz`. -/
theorem name_resolution_chain_and_scenario :
    (∀ (d : List Char) (r : Re) (rs : List Re),
        sequential_search d (r :: rs) =
          match r d with
          | none => none
          | some g => sequential_search g rs) ∧
    (∀ (url : List Char) (regexs : List Re) (padding : Option Nat),
        sequential_search url regexs = none →
        get_name url regexs padding = .error (.namingError url)) ∧
    get_name "https://example.com/chapter/42/".toList
      [urlNameSearch, digitSearch] (some 3) = .ok "042.cbz".toList := by
  refine ⟨fun d r rs => rfl, ?_, by decide⟩
  intro url regexs padding h
  simp [get_name, h]

/-- Witness for C5: a chain whose digit stage finds no digit fails with a
`NamingError` carrying the URL. -/
theorem name_resolution_chain_witness :
    get_name "abc".toList [digitSearch] (some 3) =
      .error (.namingError "abc".toList) :=
  name_resolution_chain_and_scenario.2.1 "abc".toList [digitSearch] (some 3)
    (by decide)

/-- C6: with a resolved name value and padding width `w > 0`, `get_name`
left-pads the value with `'0'` characters as text to minimum width `w`
(even for non-numeric values) and appends `".cbz"`; the padded part has
length `max w length`, hence `≥ w`, and exactly `w` when the natural
length is at most `w`; padding width 0 or `None` disables padding. -/
theorem get_name_padding :
    (∀ (url name : List Char) (regexs : List Re) (w : Nat),
        sequential_search url regexs = some name → 0 < w →
        get_name url regexs (some w) =
          .ok (padLeftZero w name ++ ".cbz".toList)) ∧
    (∀ (w : Nat) (s : List Char), (padLeftZero w s).length = max w s.length) ∧
    (∀ (w : Nat) (s : List Char), w ≤ (padLeftZero w s).length) ∧
    (∀ (w : Nat) (s : List Char),
        s.length ≤ w → (padLeftZero w s).length = w) ∧
    (∀ (url name : List Char) (regexs : List Re),
        sequential_search url regexs = some name →
        get_name url regexs (some 0) = .ok (name ++ ".cbz".toList) ∧
        get_name url regexs none = .ok (name ++ ".cbz".toList)) := by
  have hlen : ∀ (w : Nat) (s : List Char),
      (padLeftZero w s).length = max w s.length := by
    intro w s
    simp [padLeftZero]
    omega
  refine ⟨?_, hlen, ?_, ?_, ?_⟩
  · intro url name regexs w h hw
    simp [get_name, h, Nat.pos_iff_ne_zero.mp hw]
  · intro w s
    rw [hlen]
    omega
  · intro w s hsw
    rw [hlen]
    omega
  · intro url name regexs h
    exact ⟨by simp [get_name, h], by simp [get_name, h]⟩

/-- Witness for C6: the non-numeric value `abc` is padded as text to width
5, and width 0 leaves it unpadded. -/
theorem get_name_padding_witness :
    get_name "x/abc".toList [urlNameSearch] (some 5) =
      .ok "00abc.cbz".toList ∧
    get_name "x/abc".toList [urlNameSearch] (some 0) =
      .ok "abc.cbz".toList :=
  ⟨by
    have h := get_name_padding.1 "x/abc".toList "abc".toList [urlNameSearch] 5
      (by decide) (by decide)
    simpa using h,
   (get_name_padding.2.2.2.2 "x/abc".toList "abc".toList [urlNameSearch]
      (by decide)).1⟩

/-- C2 counterexample: when the JPEG re-encode raises (fetch and decode
succeeded), the whole download fails, but the error is the unwrapped
encoder exception, not an `ImageFetchError` wrapping the offending URL. -/
theorem download_encode_error_unwrapped_counterexample :
    archOne.download sessEncodeFail = .error (.external "encodefail".toList) ∧
    (Err.external "encodefail".toList).isImageFetchError = false := by decide

/-- C2 as amended: `download` either assigns one JPEG blob per descriptor,
in descriptor order regardless of completion order, or fails as a whole
with the error of some descriptor's task, leaving `_imgs_data` untouched;
a failure inside fetch/decode is an `ImageFetchError` wrapping the
offending URL and cause, while a failure of the JPEG re-encode propagates
unwrapped. -/
theorem download_all_or_nothing :
    (∀ (s : Session) (a a' : Archive) (ds : List Bytes),
        a.download s = .ok a' → a'.imgsData = some ds →
        a'.filename = a.filename ∧ a'.imgs = a.imgs ∧
        ds.length = a.imgs.length ∧
        ∀ (i : Nat) (h1 : i < a.imgs.length) (h2 : i < ds.length),
          (a.imgs.get ⟨i, h1⟩).download_jpeg s = .ok (ds.get ⟨i, h2⟩)) ∧
    (∀ (s : Session) (a a' : Archive),
        a.download s = .ok a' → a'.imgsData ≠ none) ∧
    (∀ (s : Session) (a : Archive) (e : Err),
        a.download s = .error e →
        ∃ img, img ∈ a.imgs ∧ img.download_jpeg s = .error e) ∧
    (∀ (s : Session) (img : Img) (c : Err),
        (do
          let data ← s.fetch img.url
          s.decode data : Except Err Bytes) = .error c →
        img.download_jpeg s = .error (.imageFetchError img.url c)) ∧
    (∀ (s : Session) (img : Img) (image : Bytes),
        (do
          let data ← s.fetch img.url
          s.decode data : Except Err Bytes) = .ok image →
        img.download_jpeg s = s.encode image) := by
  refine ⟨?_, ?_, ?_, ?_, ?_⟩
  · intro s a a' ds hok hds
    unfold Archive.download at hok
    cases hg : gather (fun img => img.download_jpeg s) a.imgs with
    | error e => rw [hg] at hok; simp at hok
    | ok bs =>
      rw [hg] at hok
      simp only [Except.ok.injEq] at hok
      subst hok
      simp only [Option.some.injEq] at hds
      subst hds
      obtain ⟨hlen, hpt⟩ := gather_ok _ a.imgs bs hg
      exact ⟨rfl, rfl, hlen, hpt⟩
  · intro s a a' hok
    unfold Archive.download at hok
    cases hg : gather (fun img => img.download_jpeg s) a.imgs with
    | error e => rw [hg] at hok; simp at hok
    | ok bs =>
      rw [hg] at hok
      simp only [Except.ok.injEq] at hok
      subst hok
      simp
  · intro s a e herr
    unfold Archive.download at herr
    cases hg : gather (fun img => img.download_jpeg s) a.imgs with
    | error e2 =>
      rw [hg] at herr
      simp only [Except.error.injEq] at herr
      subst herr
      exact gather_error _ a.imgs e2 hg
    | ok bs => rw [hg] at herr; simp at herr
  · intro s img c hfd
    unfold Img.download_jpeg
    rw [hfd]
  · intro s img image hfd
    unfold Img.download_jpeg
    rw [hfd]

/-- Witness for the amended C2: a fetch failure surfaces as an
`ImageFetchError` wrapping the offending URL and the network cause. -/
theorem download_all_or_nothing_witness :
    Img.download_jpeg imgW sessFetchFail =
      .error (.imageFetchError "u".toList (.external "net".toList)) :=
  download_all_or_nothing.2.2.2.1 sessFetchFail imgW
    (.external "net".toList) (by decide)

/-- C8: for an archive whose `images` and `imageBytes` have equal length,
`save` writes `outputDirectory/archive.filename` as a zip whose entries
are exactly `images[i].filename ↦ imageBytes[i]`, in order; reading the
written path back yields exactly those entries (no extra or missing ones),
any previous file at that path is overwritten, and no other path is
touched. -/
theorem save_zip_entries (a : Archive) (ds : List Bytes)
    (directory : List Char) (fs : FS)
    (hds : a.imgsData = some ds) (hlen : ds.length = a.imgs.length) :
    a.save directory fs =
      .ok (fsWrite fs (pathJoin directory a.filename)
        (List.zipWith (fun img d => (img.filename, d)) a.imgs ds)) ∧
    (List.zipWith (fun img d => (img.filename, d)) a.imgs ds).length =
      a.imgs.length ∧
    (∀ (i : Nat) (h1 : i < a.imgs.length) (h2 : i < ds.length)
        (h3 : i < (List.zipWith (fun img d => (img.filename, d)) a.imgs ds).length),
        (List.zipWith (fun img d => (img.filename, d)) a.imgs ds).get ⟨i, h3⟩ =
          ((a.imgs.get ⟨i, h1⟩).filename, ds.get ⟨i, h2⟩)) ∧
    fsWrite fs (pathJoin directory a.filename)
        (List.zipWith (fun img d => (img.filename, d)) a.imgs ds)
        (pathJoin directory a.filename) =
      some (List.zipWith (fun img d => (img.filename, d)) a.imgs ds) ∧
    (∀ p, p ≠ pathJoin directory a.filename →
        fsWrite fs (pathJoin directory a.filename)
          (List.zipWith (fun img d => (img.filename, d)) a.imgs ds) p = fs p) := by
  refine ⟨?_, ?_, ?_, ?_, ?_⟩
  · unfold Archive.save
    rw [hds]
  · rw [List.length_zipWith, hlen]
    omega
  · intro i h1 h2 h3
    simp [List.getElem_zipWith]
  · simp [fsWrite]
  · intro p hp
    simp [fsWrite, hp]

/-- Witness for C8 at a concrete two-image archive written into an empty
directory. -/
theorem save_zip_entries_witness :
    archTwo.save "out".toList fsEmpty =
      .ok (fsWrite fsEmpty (pathJoin "out".toList archTwo.filename)
        (List.zipWith (fun img d => (img.filename, d)) archTwo.imgs
          [[1], [2]])) :=
  (save_zip_entries archTwo [[1], [2]] "out".toList fsEmpty
    (by decide) (by decide)).1

/-- C1 counterexample: with two URLs where the first fails with an
`EmptyResultError` (a per-URL-tier error) and the second would succeed,
the run terminates with the first URL's error instead of going on to
process the second URL. -/
theorem run_continues_counterexample :
    exceptErr (actions envC cfgDefault regsDefault (some 3) "out".toList
        fsEmpty [urlA, urlB]) = some (.emptyResultError urlA) ∧
    exceptIsOk (process_url envC cfgDefault regsDefault (some 3) "out".toList
        fsEmpty urlB) = true := by decide

/-- C1 as amended: the `actions` loop has no per-URL error handling — the
first error raised while processing a URL (of whatever tier) terminates
the whole run, and only a fully successful URL lets the loop continue with
the next URL. -/
theorem run_aborts_on_first_error :
    (∀ (env : Env) (config : ImageConfig) (regexs : List Re)
        (padding : Option Nat) (directory : List Char) (fs : FS)
        (url : List Char) (urls : List (List Char)) (e : Err),
        process_url env config regexs padding directory fs url = .error e →
        actions env config regexs padding directory fs (url :: urls) =
          .error e) ∧
    (∀ (env : Env) (config : ImageConfig) (regexs : List Re)
        (padding : Option Nat) (directory : List Char) (fs fs2 : FS)
        (url : List Char) (urls : List (List Char)),
        process_url env config regexs padding directory fs url = .ok fs2 →
        actions env config regexs padding directory fs (url :: urls) =
          actions env config regexs padding directory fs2 urls) := by
  constructor
  · intro env config regexs padding directory fs url urls e h
    simp [actions, h]
  · intro env config regexs padding directory fs fs2 url urls h
    simp [actions, h]

/-- Witness for the amended C1: the two-URL run of the counterexample
environment stops with the first URL's error. -/
theorem run_aborts_on_first_error_witness :
    actions envC cfgDefault regsDefault (some 3) "out".toList fsEmpty
      [urlA, urlB] = .error (.emptyResultError urlA) :=
  run_aborts_on_first_error.1 envC cfgDefault regsDefault (some 3)
    "out".toList fsEmpty urlA [urlB] (.emptyResultError urlA) (by rfl)

/-- C4 counterexample: in the legacy `ComicDownloader.py` pipeline a URL
whose locating stage yields zero descriptors is not aborted — no error is
raised, downloading of the empty list populates `_imgs_data` with the
empty sequence, and an empty archive file is persisted to disk. -/
theorem empty_locate_legacy_counterexample :
    exceptErr (legacy_process_url envC cfgDefault regsDefault (some 3)
        "out".toList fsEmpty urlA) = none ∧
    exceptFS (legacy_process_url envC cfgDefault regsDefault (some 3)
        "out".toList fsEmpty urlA)
      (pathJoin "out".toList "001.cbz".toList) = some [] := by decide

/-- C4 as amended: in the `comicdownloader` package pipeline, every URL
whose locating stage yields zero descriptors aborts with an
`EmptyResultError` before any downloading or saving happens, and an
archive whose `_imgs_data` is unset can never be persisted (saving it
raises instead of writing); the legacy script lacks the empty-result check
and persists an empty archive. -/
theorem empty_locate_aborts_package_pipeline :
    (∀ (env : Env) (config : ImageConfig) (regexs : List Re)
        (padding : Option Nat) (directory : List Char) (fs : FS)
        (url : List Char) (nodes : List Node),
        env.pageNodes url = .ok nodes →
        find_images nodes config = [] →
        process_url env config regexs padding directory fs url =
          .error (.emptyResultError url)) ∧
    (∀ (a : Archive) (directory : List Char) (fs : FS),
        a.imgsData = none →
        a.save directory fs = .error .attributeError) := by
  constructor
  · intro env config regexs padding directory fs url nodes hp hempty
    simp [process_url, hp, hempty]
  · intro a directory fs h
    unfold Archive.save
    rw [h]

/-- Witness for the amended C4: the empty-page URL of the counterexample
environment aborts the package pipeline with an `EmptyResultError`. -/
theorem empty_locate_aborts_witness :
    process_url envC cfgDefault regsDefault (some 3) "out".toList fsEmpty
      urlA = .error (.emptyResultError urlA) :=
  empty_locate_aborts_package_pipeline.1 envC cfgDefault regsDefault (some 3)
    "out".toList fsEmpty urlA [] (by decide) (by decide)

/-- C9: the bar's fill count is computed in binary64 floating point and
diverges from the exact `⌈completed / total * width⌉` the specification
describes.  At `completed = total = 11` with width 100 the code fills 101
cells — one more than the bar's width, so the bar overflows its frame
instead of being exactly full — and at `completed = 9, total = 75` it
fills 13 cells where the exact proportional value is 12. -/
theorem bar_float_fill_divergence :
    bar 11 11 100 '█' ' ' = '[' :: (List.replicate 101 '█' ++ [']']) ∧
    barTaken 11 11 100 = 101 ∧
    barTaken 9 75 100 = 13 ∧
    specBarFill 11 11 100 = 100 ∧
    specBarFill 9 75 100 = 12 := by
  refine ⟨by decide, by decide, by decide, ?_, ?_⟩ <;> norm_num [specBarFill]
